import Mathlib

/-!
# Verification of the budget-dashboard core pipeline (`src/app.py`)

Shallow embedding of the data model and the aggregation / guardrail pipeline
of the Streamlit budget dashboard.  Pandas `DataFrame` columns are modelled as
lists of rows whose fields hold `Cell` values (a scalar cell of a frame:
missing/NaN, string, number, or datetime).  Python/pandas floats are modelled
as exact rationals (`Rat`); real-number readings of the arithmetic comparisons
are standard for this kind of specification work.

Each section of definitions cites the lines of `src/app.py` it embeds.
-/

namespace BudgetApp

/-- A scalar cell of a pandas `DataFrame` column.
`null` stands for a missing value (`None` / `NaN` / `NaT`),
`str` for a Python string, `num` for an `int`/`float` (modelled exactly as a
rational), and `dt` for a `datetime64` value (modelled as an abstract integer
timestamp — only identity of timestamps matters for the claims). -/
inductive Cell where
  | null : Cell
  | str (s : String) : Cell
  | num (q : Rat) : Cell
  | dt (t : Int) : Cell
deriving Repr, DecidableEq

namespace Cell

def isNum : Cell → Bool
  | .num _ => true
  | _ => false

def isNull : Cell → Bool
  | .null => true
  | _ => false

end Cell

/-! ## Characters and Python `str.title()` (used by `df["Type"].str.title()`, line 56)

Python's `str.title()` upper-cases every cased character that follows a
non-cased character and lower-cases the rest.  The app's data is ASCII, so the
model restricts "cased" to ASCII letters, exactly as Lean core's
`Char.toUpper`/`Char.toLower` do. -/

/-- ASCII upper-case letter test (code points 65–90). -/
def chIsUpper (c : Char) : Bool := 65 ≤ c.toNat && c.toNat ≤ 90

/-- ASCII lower-case letter test (code points 97–122). -/
def chIsLower (c : Char) : Bool := 97 ≤ c.toNat && c.toNat ≤ 122

/-- ASCII letter test. -/
def chIsAlpha (c : Char) : Bool := chIsUpper c || chIsLower c

/-- ASCII upper-casing, as in Python's `str.upper` restricted to ASCII. -/
def chUp (c : Char) : Char := if chIsLower c then Char.ofNat (c.toNat - 32) else c

/-- ASCII lower-casing. -/
def chLo (c : Char) : Char := if chIsUpper c then Char.ofNat (c.toNat + 32) else c

/-- One pass of Python `str.title()`: `prevAlpha` records whether the previous
character was a letter; a letter after a non-letter is upper-cased, a letter
after a letter is lower-cased, non-letters pass through. -/
def titleAux (prevAlpha : Bool) : List Char → List Char
  | [] => []
  | c :: cs =>
      (if chIsAlpha c then (if prevAlpha then chLo c else chUp c) else c)
        :: titleAux (chIsAlpha c) cs

/-- Python `str.title()` (ASCII model). -/
def pyTitle (s : String) : String := String.mk (titleAux false s.data)

/-! ## Small parsing helpers (pandas coercions) -/

/-- Parse a nonempty all-digit character list as a natural number. -/
def digitsToNat? (cs : List Char) : Option Nat :=
  if cs.isEmpty then none
  else cs.foldl
    (fun acc c =>
      match acc with
      | none => none
      | some n => if c.isDigit then some (n * 10 + (c.toNat - 48)) else none)
    (some 0)

/-- Model of `pd.to_numeric` on a single string: optional sign, digits,
optional decimal part; anything else fails (coerces to `NaN` in pandas). -/
def strToRat? (s : String) : Option Rat :=
  let t := s.trim
  let neg := t.startsWith "-"
  let body := if neg then t.drop 1 else t
  let sign : Rat := if neg then -1 else 1
  match body.splitOn "." with
  | [i] => (digitsToNat? i.data).map (fun n => sign * (n : Rat))
  | [i, f] =>
      match digitsToNat? i.data, digitsToNat? f.data with
      | some n, some m => some (sign * ((n : Rat) + (m : Rat) / ((10 : Rat) ^ f.length)))
      | _, _ => none
  | _ => none

/-- Model of `pd.to_datetime` string parsing, restricted to the `YYYY-MM-DD`
shape; the produced integer is an abstract timestamp encoding (only
parse-success vs. parse-failure and stability under re-parsing matter for the
claims). -/
def parseDate (s : String) : Option Int :=
  match s.splitOn "-" with
  | [y, m, d] =>
      match digitsToNat? y.data, digitsToNat? m.data, digitsToNat? d.data with
      | some yy, some mm, some dd => some (yy * 10000 + mm * 100 + dd)
      | _, _, _ => none
  | _ => none

/-- String rendering of a number, modelling Python `str()` on `int`/`float`
(the exact digits never influence a claim; only that strings render to
themselves). -/
def ratToStr (q : Rat) : String :=
  if q.den = 1 then toString q.num else toString q

/-- Model of pandas `.astype(str)` on one cell.  Missing values render to the
string `"nan"` (Python `str(float("nan"))`). -/
def cellToStr : Cell → String
  | .null => "nan"
  | .str s => s
  | .num q => ratToStr q
  | .dt t => "ts-" ++ toString t

/-- Model of `.str.slice(0, n)` on one (string) cell. -/
def pySlice (s : String) (n : Nat) : String := String.mk (s.data.take n)

/-- Model of Python `str.strip()`: remove leading and trailing whitespace. -/
def pyStrip (s : String) : String :=
  String.mk (((s.data.dropWhile Char.isWhitespace).reverse.dropWhile Char.isWhitespace).reverse)

/-- Python `dict` built from association pairs: a later binding of the same
key overwrites an earlier one (`DataFrame.to_dict` semantics), lookup of a
missing key yields `none`. -/
def dictGet {α β : Type} [BEq α] (m : List (α × β)) (k : α) : Option β :=
  m.foldl (fun acc p => if p.1 == k then some p.2 else acc) none

/-! ## Session settings (`st.session_state.settings`, lines 33–44)

Only `default_month` is consumed by the functions under verification; the
guardrail thresholds (`hard_caps`, loss limits) are passed to the guardrail
evaluator directly, mirroring how the source reads them from the dict at the
point of use. -/

structure Settings where
  default_month : String
deriving Repr, DecidableEq

/-! ## Raw imported rows and the normalizer (`ensure_columns`, lines 47–62)

A `RawTable` is an uploaded/stored `DataFrame`: the `has*` flags record which
of the seven canonical columns are present (line 50 adds absent columns filled
with `None`), and each `RawRow` carries one cell per canonical column (cells
of absent columns are ignored). -/

structure RawRow where
  month : Cell
  date : Cell
  category : Cell
  typ : Cell
  budget : Cell
  actual : Cell
  sect : Cell
deriving Repr, DecidableEq

structure RawTable where
  hasMonth : Bool
  hasDate : Bool
  hasCategory : Bool
  hasType : Bool
  hasBudget : Bool
  hasActual : Bool
  hasSection : Bool
  rows : List RawRow
deriving Repr, DecidableEq

/-- A normalized transaction row, the output shape of `ensure_columns`. -/
structure Trans where
  month : String
  date : Cell
  category : String
  typ : Cell
  budget : Rat
  actual : Rat
  sect : Cell
deriving Repr, DecidableEq

/-- The effective cell of a possibly-absent column: line 50–51 of the source
adds every missing canonical column filled with `None`. -/
def effCell (has : Bool) (c : Cell) : Cell := if has then c else Cell.null

/-- `Series.fillna(d)` on one cell, `d` a string. -/
def fillnaStr (d : String) : Cell → Cell
  | .null => .str d
  | c => c

/-- `pd.to_datetime(·, errors="coerce")` on one cell: datetimes pass through,
missing stays missing (`NaT`), strings parse or coerce to `NaT`, numbers are
interpreted as epoch offsets. -/
def toDatetime : Cell → Cell
  | .null => .null
  | .dt t => .dt t
  | .str s =>
      match parseDate s with
      | some t => .dt t
      | none => .null
  | .num q => .dt q.floor

/-- `pd.to_numeric(·, errors="coerce").fillna(0.0)` on one cell. -/
def toNumeric0 : Cell → Rat
  | .num q => q
  | .null => 0
  | .str s => (strToRat? s).getD 0
  | .dt _ => 0

/-- `.str.title()` on one cell of an object-dtype column: strings are
title-cased, every non-string element becomes `NaN`. -/
def titleCell : Cell → Cell
  | .str s => .str (pyTitle s)
  | _ => .null

/-- Normalization of a single row (the element-wise body of `ensure_columns`,
lines 53–61).  `catMap` is the `Category → Section` dict built on line 60 from
the category catalog; its keys and values are raw cells. -/
def normRow (s : Settings) (catMap : List (Cell × Cell)) (t : RawTable) (r : RawRow) : Trans :=
  let month := pySlice (cellToStr (fillnaStr s.default_month (effCell t.hasMonth r.month))) 7
  let date := toDatetime (effCell t.hasDate r.date)
  let category := cellToStr (effCell t.hasCategory r.category)
  let typ := titleCell (effCell t.hasType r.typ)
  let budget := toNumeric0 (effCell t.hasBudget r.budget)
  let actual := toNumeric0 (effCell t.hasActual r.actual)
  let sect := (dictGet catMap (Cell.str category)).getD (effCell t.hasSection r.sect)
  ⟨month, date, category, typ, budget, actual, sect⟩

/-- Line 56 (`df["Type"].str.title()`) raises `AttributeError` when the
`Type` column has a numeric dtype: pandas infers `int64`/`float64` for a
present, nonempty column whose values are all numbers or missing (with at
least one number), and the `.str` accessor rejects non-string dtypes.  A
column added as all-`None` (absent in the upload) has object dtype and does
not raise. -/
def typeCrash (t : RawTable) : Bool :=
  t.hasType
    && t.rows.any (fun r => r.typ.isNum)
    && t.rows.all (fun r => r.typ.isNum || r.typ.isNull)

/-- `ensure_columns` (lines 47–62): add missing canonical columns, then coerce
each field; raises (modelled as `.error`) exactly in the `typeCrash`
situation, otherwise returns the normalized rows. -/
def ensure_columns (s : Settings) (catMap : List (Cell × Cell)) (t : RawTable) :
    Except String (List Trans) :=
  if typeCrash t then
    .error "AttributeError: Can only use .str accessor with string values!"
  else
    .ok (t.rows.map (normRow s catMap t))

/-! ## Monthly aggregation (`aggregate_monthly`, lines 64–70) -/

/-- One row of the monthly summary frame produced by `aggregate_monthly`. -/
structure MonthSummary where
  month : String
  income : Rat
  expense : Rat
  savings : Rat
deriving Repr, DecidableEq

/-- Line 66: the assigned `Income` column,
`r["Actual (€)"] if r["Type"]=="Income" else 0`. -/
def rowIncome (r : Trans) : Rat := if r.typ == Cell.str "Income" then r.actual else 0

/-- Line 67: the assigned `Expense` column. -/
def rowExpense (r : Trans) : Rat := if r.typ == Cell.str "Expense" then r.actual else 0

/-- The group keys of a pandas `groupby` on a string column: the distinct
values, sorted ascending (groupby sorts keys; line 68 additionally calls
`sort_values("Month")`, which is the same ascending lexicographic order). -/
def groupKeys (l : List String) : List String :=
  l.dedup.insertionSort (· ≤ ·)

/-- `aggregate_monthly` (lines 64–70): per distinct month of the input frame,
sum the assigned `Income` and `Expense` columns and set
`Savings = Income - Expense` (line 69). -/
def aggregate_monthly (df : List Trans) : List MonthSummary :=
  (groupKeys (df.map (·.month))).map fun m =>
    let grp := df.filter (fun r => r.month == m)
    let inc := (grp.map rowIncome).sum
    let exp := (grp.map rowExpense).sum
    ⟨m, inc, exp, inc - exp⟩

/-! ## Current month key (`current_month_key`, lines 79–82) -/

/-- `current_month_key`: the `Month` value of the last row in insertion order
(`df["Month"].iloc[-1]`), or the default month when the frame is empty. -/
def current_month_key (s : Settings) (df : List Trans) : String :=
  match df.getLast? with
  | none => s.default_month
  | some r => r.month

/-! ## Per-category expense summary with budget override
(the `Variance by Category` block, lines 227–230; the same
`map(bmap).fillna` override appears at lines 183–184 and 317–318) -/

/-- One row of the per-category expense summary `exp_only`. -/
structure CatSum where
  category : String
  budget : Rat
  actual : Rat
  variance : Rat
deriving Repr, DecidableEq

/-- Lines 183–184 / 227–228: `dfm["Budget (€)"] =
dfm["Category"].map(bmap).fillna(dfm["Budget (€)"])` — a category present in
the budget map has its budget cell replaced on every row, otherwise the row's
own budget cell is kept. -/
def overrideBudget (bmap : List (String × Rat)) (r : Trans) : Trans :=
  match dictGet bmap r.category with
  | some b => { r with budget := b }
  | none => r

/-- Line 171 / 214 / 316: `dfm = data[data["Month"]==cm]`. -/
def dfm (df : List Trans) (cm : String) : List Trans :=
  df.filter (fun r => r.month == cm)

/-- Line 228 applied to the month-filtered frame: every row's budget cell is
replaced by its category's entry in the budget map when present. -/
def dfmOverride (df : List Trans) (cm : String) (bmap : List (String × Rat)) : List Trans :=
  (dfm df cm).map (overrideBudget bmap)

/-- Line 229, first half: `dfm[dfm["Type"]=="Expense"]` after the override. -/
def expRows (df : List Trans) (cm : String) (bmap : List (String × Rat)) : List Trans :=
  (dfmOverride df cm bmap).filter (fun r => r.typ == Cell.str "Expense")

/-- One group row of the `groupby("Category").sum()` of line 229, with the
`Variance = Budget - Actual` column of line 230. -/
def catSummary (e : List Trans) (c : String) : CatSum :=
  ⟨c, ((e.filter (fun r => r.category == c)).map (fun r => r.budget)).sum,
      ((e.filter (fun r => r.category == c)).map (fun r => r.actual)).sum,
      ((e.filter (fun r => r.category == c)).map (fun r => r.budget)).sum
        - ((e.filter (fun r => r.category == c)).map (fun r => r.actual)).sum⟩

/-- Lines 227–230: current-month expense rows with the budget override
applied, grouped by `Category` (keys sorted ascending), summing budget and
actual, with `Variance = Budget - Actual`. -/
def exp_only (df : List Trans) (cm : String) (bmap : List (String × Rat)) : List CatSum :=
  (groupKeys ((expRows df cm bmap).map (fun x => x.category))).map
    (catSummary (expRows df cm bmap))

/-- The expense rows of category `cat` in month `cm` (before any budget
override; the override never changes `Month`, `Type`, `Category` or
`Actual`). -/
def catRows (df : List Trans) (cm : String) (cat : String) : List Trans :=
  df.filter (fun r => r.category == cat && (r.typ == Cell.str "Expense" && r.month == cm))

/-- The summed actual expense of category `cat` in month `cm`. -/
def catActual (df : List Trans) (cm : String) (cat : String) : Rat :=
  ((catRows df cm cat).map (·.actual)).sum

/-! ## Guardrails & caps (lines 274–287) -/

/-- The alerts the `Guardrails & Caps` block can append: the early burn-rate
warning of line 277 and the per-category hard-cap breach of line 283 (which
names the category and its cap in its message). -/
inductive Alert where
  | burn : Alert
  | capBreach (cat : String) (cap : Rat) : Alert
deriving Repr, DecidableEq

/-- Whether an alert is a cap-breach alert naming category `cat`. -/
def namesCat (cat : String) : Alert → Bool
  | .capBreach c _ => c == cat
  | _ => false

/-- Line 281: `exp_only.loc[exp_only["Category"]==cat, "Actual (€)"].sum()`. -/
def spentCat (expOnly : List CatSum) (cat : String) : Rat :=
  ((expOnly.filter (fun e => e.category == cat)).map (·.actual)).sum

/-- Lines 275–287: the burn-rate rule (line 276, appended first) followed by
one pass over the `hard_caps` dict (lines 280–283).  The `if caps:` guard of
line 279 is the identity on the alert list (an empty dict yields no
iterations either way). -/
def guardrail_alerts (monthly_budget_total spent_to_date : Rat) (today_in_month : Int)
    (hard_caps : List (String × Rat)) (expOnly : List CatSum) : List Alert :=
  (if 0 < monthly_budget_total ∧ today_in_month < 20
      ∧ (4 / 5 : Rat) * monthly_budget_total < spent_to_date
   then [Alert.burn] else [])
  ++ hard_caps.filterMap fun p =>
      if p.2 < spentCat expOnly p.1 then some (Alert.capBreach p.1 p.2) else none

/-! ## Calendar arithmetic and the weekly pace tracker (lines 259–267)

`datetime` subtraction is modelled through a day-ordinal function for the
proleptic Gregorian calendar (the ordinal of the first day of a month);
`days_in_month` is then literally the source's `(end - start).days`. -/

/-- Gregorian leap-year test. -/
def isLeap (y : Nat) : Bool := y % 4 == 0 && (y % 100 != 0 || y % 400 == 0)

/-- Days in the years before year `y` (rata-die style ordinal of Jan 1). -/
def daysBeforeYear (y : Nat) : Nat :=
  365 * (y - 1) + (y - 1) / 4 - (y - 1) / 100 + (y - 1) / 400

/-- Cumulative day counts before each month in a non-leap year. -/
def cumMonthDays : List Nat := [0, 31, 59, 90, 120, 151, 181, 212, 243, 273, 304, 334]

/-- Days in year `y` before the first of month `m`. -/
def daysBeforeMonth (y m : Nat) : Nat :=
  cumMonthDays.getD (m - 1) 0 + (if 2 < m && isLeap y then 1 else 0)

/-- Day ordinal of `datetime(y, m, 1)`. -/
def monthStartOrd (y m : Nat) : Nat := daysBeforeYear y + daysBeforeMonth y m

/-- Lines 261–263: `days_in_month = (end - start).days` with
`end = datetime(year+1, 1, 1) if mon == 12 else datetime(year, mon+1, 1)`. -/
def days_in_month (y m : Nat) : Nat :=
  (if m == 12 then monthStartOrd (y + 1) 1 else monthStartOrd y (m + 1)) - monthStartOrd y m

/-- Line 264: `today_in_month = min((datetime.now() - start).days + 1,
days_in_month)`; `nowOrd` is the day ordinal of `datetime.now()`. -/
def today_in_month (nowOrd : Int) (y m : Nat) : Int :=
  min (nowOrd - (monthStartOrd y m : Int) + 1) (days_in_month y m : Int)

/-- Line 267: `expected_spend_to_date = monthly_budget_total *
(today_in_month / days_in_month) if days_in_month else 0`. -/
def expected_spend_to_date (total : Rat) (nowOrd : Int) (y m : Nat) : Rat :=
  if days_in_month y m ≠ 0 then
    total * ((today_in_month nowOrd y m : Rat) / (days_in_month y m : Rat))
  else 0

/-! ## 3-month rolling average (lines 238–245) -/

/-- The categories tracked by the rolling-average chart (line 239). -/
def keycats : List String := ["Restaurant & Food Delivery", "Clothing"]

/-- The last `n` elements of a list. -/
def lastN (n : Nat) (l : List α) : List α := l.drop (l.length - n)

/-- `Series.rolling(3, min_periods=1).mean()` (line 245): walk the series
keeping the up-to-two previous values; at every position emit the mean of the
trailing window of width at most 3 (always nonempty, so never null). -/
def roll3Aux (prev : List Rat) : List Rat → List Rat
  | [] => []
  | x :: xs =>
      let w := prev ++ [x]
      (w.sum / (w.length : Rat)) :: roll3Aux (lastN 2 w) xs

/-- The 3-point trailing rolling mean of a series. -/
def roll3 (xs : List Rat) : List Rat := roll3Aux [] xs

/-- Lines 240–244 for one category: take the expense rows of the tracked
categories (`dfk`), group by month summing `Actual (€)`, and order the
per-month totals chronologically (for `YYYY-MM` keys the
`pd.to_datetime(month + "-01")` sort of line 243–244 is the ascending
lexicographic order on the month strings). -/
def catSeries (df : List Trans) (cat : String) : List Rat :=
  let dfk := df.filter (fun r => r.typ == Cell.str "Expense" && r.category ∈ keycats)
  let mine := dfk.filter (fun r => r.category == cat)
  (groupKeys (mine.map (·.month))).map fun m =>
    (((mine.filter (fun r => r.month == m)).map (·.actual))).sum

/-- The `Roll3` column of line 245 for one category. -/
def catRoll3 (df : List Trans) (cat : String) : List Rat := roll3 (catSeries df cat)

/-! ## Category-catalog upload (lines 97–103) -/

/-- A user feedback message shown by the app (`st.success` / `st.warning`). -/
inductive Msg where
  | success (text : String) : Msg
  | warning (text : String) : Msg
deriving Repr, DecidableEq

/-- An uploaded CSV as a bare frame: column names plus rows of cells. -/
structure CatalogDf where
  cols : List String
  rows : List (List Cell)
deriving Repr, DecidableEq

/-- Line 100: `newcats.columns = [c.strip() for c in newcats.columns]`. -/
def stripCols (t : CatalogDf) : CatalogDf := { t with cols := t.cols.map pyStrip }

/-- Lines 98–103: strip the uploaded column names; if `{Category, Type,
Section}` is a subset of them, replace the catalog wholesale and report
success — otherwise fall through silently (there is no `else` branch), leaving
the existing catalog untouched and emitting no message at all. -/
def upload_categories (current : CatalogDf) (upload : CatalogDf) : CatalogDf × List Msg :=
  let newcats := stripCols upload
  if "Category" ∈ newcats.cols && "Type" ∈ newcats.cols && "Section" ∈ newcats.cols then
    (newcats, [Msg.success "Categories updated."])
  else
    (current, [])

/-! ## Statement helpers and re-normalization embedding -/

/-- A normalized row viewed again as a raw row (strings and numbers become
cells), as happens when the session data — already normalized — is passed
through `ensure_columns` again (lines 164, 194, 299 re-normalize
`st.session_state.data`). -/
def toRaw (x : Trans) : RawRow :=
  ⟨.str x.month, x.date, .str x.category, x.typ, .num x.budget, .num x.actual, x.sect⟩

/-- A normalized frame viewed again as a raw table: all seven canonical
columns are present. -/
def toRawTable (ts : List Trans) : RawTable :=
  ⟨true, true, true, true, true, true, true, ts.map toRaw⟩

/-- Reference value for the specification of `aggregate_monthly`: the summed
`Actual (€)` of the `Income`-typed rows of month `m`. -/
def incomeSum (df : List Trans) (m : String) : Rat :=
  ((df.filter (fun r => r.typ == Cell.str "Income" && r.month == m)).map (·.actual)).sum

/-- Reference value: the summed `Actual (€)` of the `Expense`-typed rows of
month `m`. -/
def expenseSum (df : List Trans) (m : String) : Rat :=
  ((df.filter (fun r => r.typ == Cell.str "Expense" && r.month == m)).map (·.actual)).sum

/-! ## Concrete sample inputs (used by witnesses and counterexamples) -/

/-- Sample settings with default month `2025-01`. -/
def sampleSettings : Settings := ⟨"2025-01"⟩

/-- A small catalog map `Category → Section` as built on line 60. -/
def sampleCatMap : List (Cell × Cell) := [(Cell.str "Rent", Cell.str "Needs")]

/-- A messy upload: `Month` too long, unparseable `Date`, lower-case type,
non-numeric amount, absent `Budget`/`Section` columns. -/
def sampleUpload : RawTable :=
  ⟨true, true, true, true, false, true, false,
   [⟨Cell.str "2025-03-extra", Cell.str "not a date", Cell.str "Rent",
     Cell.str "expense", Cell.null, Cell.str "abc", Cell.null⟩,
    ⟨Cell.null, Cell.str "2025-03-04", Cell.num 7, Cell.num 2,
     Cell.null, Cell.num 12, Cell.str "Wants"⟩]⟩

/-- An upload whose `Type` column holds only numbers (pandas infers a numeric
dtype for it). -/
def numericTypeUpload : RawTable :=
  ⟨false, false, false, true, false, false, false,
   [⟨Cell.null, Cell.null, Cell.null, Cell.num 1, Cell.null, Cell.null, Cell.null⟩]⟩

/-- The catalog in session state before an upload. -/
def sampleCatalog : CatalogDf :=
  ⟨["Category", "Type", "Section"],
   [[Cell.str "Rent", Cell.str "Expense", Cell.str "Needs"]]⟩

/-- An invalid catalog upload: the `Section` column is missing. -/
def sampleBadUpload : CatalogDf :=
  ⟨["Category", "Type"], [[Cell.str "Rent", Cell.str "Expense"]]⟩

/-- A valid catalog upload (column names carrying stray spaces). -/
def sampleGoodUpload : CatalogDf :=
  ⟨["Category ", " Type", "Section"],
   [[Cell.str "Phone", Cell.str "Expense", Cell.str "Needs"]]⟩

/-- A small normalized transaction frame: two January `Rent` expenses, one
January and one February `Clothing` expense, and a January salary. -/
def sampleTxns : List Trans :=
  [⟨"2025-01", Cell.null, "Salary", Cell.str "Income", 0, 2000, Cell.str "Savings"⟩,
   ⟨"2025-01", Cell.null, "Rent", Cell.str "Expense", 900, 800, Cell.str "Needs"⟩,
   ⟨"2025-01", Cell.null, "Rent", Cell.str "Expense", 900, 150, Cell.str "Needs"⟩,
   ⟨"2025-01", Cell.null, "Clothing", Cell.str "Expense", 100, 60, Cell.str "Wants"⟩,
   ⟨"2025-02", Cell.null, "Clothing", Cell.str "Expense", 100, 40, Cell.str "Wants"⟩]

/-- A budget map assigning `Rent` a monthly budget of 500. -/
def sampleBmap : List (String × Rat) := [("Rent", 500)]

/-! ## Character lemmas for `str.title()` idempotence -/

theorem char_toNat_ofNat {n : Nat} (h : n.isValidChar) : (Char.ofNat n).toNat = n := by
  rw [Char.ofNat, dif_pos h]
  rfl

theorem chIsLower_iff {c : Char} : chIsLower c = true ↔ 97 ≤ c.toNat ∧ c.toNat ≤ 122 := by
  simp [chIsLower]

theorem chIsUpper_iff {c : Char} : chIsUpper c = true ↔ 65 ≤ c.toNat ∧ c.toNat ≤ 90 := by
  simp [chIsUpper]

theorem toNat_chUp_of_lower {c : Char} (h : chIsLower c = true) :
    (chUp c).toNat = c.toNat - 32 := by
  have hb := chIsLower_iff.1 h
  rw [chUp, if_pos h]
  exact char_toNat_ofNat (Or.inl (by omega))

theorem toNat_chLo_of_upper {c : Char} (h : chIsUpper c = true) :
    (chLo c).toNat = c.toNat + 32 := by
  have hb := chIsUpper_iff.1 h
  rw [chLo, if_pos h]
  exact char_toNat_ofNat (Or.inl (by omega))

theorem chUp_of_not_lower {c : Char} (h : chIsLower c = false) : chUp c = c := by
  simp [chUp, h]

theorem chLo_of_not_upper {c : Char} (h : chIsUpper c = false) : chLo c = c := by
  simp [chLo, h]

theorem chIsAlpha_chUp (c : Char) : chIsAlpha (chUp c) = chIsAlpha c := by
  by_cases h : chIsLower c = true
  · have hb := chIsLower_iff.1 h
    have hUp : chIsUpper (chUp c) = true := chIsUpper_iff.2 (by rw [toNat_chUp_of_lower h]; omega)
    simp [chIsAlpha, hUp, h]
  · rw [chUp_of_not_lower (Bool.eq_false_iff.2 h)]

theorem chIsAlpha_chLo (c : Char) : chIsAlpha (chLo c) = chIsAlpha c := by
  by_cases h : chIsUpper c = true
  · have hb := chIsUpper_iff.1 h
    have hLo : chIsLower (chLo c) = true := chIsLower_iff.2 (by rw [toNat_chLo_of_upper h]; omega)
    simp [chIsAlpha, hLo, h]
  · rw [chLo_of_not_upper (Bool.eq_false_iff.2 h)]

theorem chUp_chUp (c : Char) : chUp (chUp c) = chUp c := by
  by_cases h : chIsLower c = true
  · have hb := chIsLower_iff.1 h
    have : chIsLower (chUp c) = false := by
      apply Bool.eq_false_iff.2
      intro hc
      have := chIsLower_iff.1 hc
      rw [toNat_chUp_of_lower h] at this
      omega
    exact chUp_of_not_lower this
  · rw [chUp_of_not_lower (Bool.eq_false_iff.2 h), chUp_of_not_lower (Bool.eq_false_iff.2 h)]

theorem chLo_chLo (c : Char) : chLo (chLo c) = chLo c := by
  by_cases h : chIsUpper c = true
  · have hb := chIsUpper_iff.1 h
    have : chIsUpper (chLo c) = false := by
      apply Bool.eq_false_iff.2
      intro hc
      have := chIsUpper_iff.1 hc
      rw [toNat_chLo_of_upper h] at this
      omega
    exact chLo_of_not_upper this
  · rw [chLo_of_not_upper (Bool.eq_false_iff.2 h), chLo_of_not_upper (Bool.eq_false_iff.2 h)]

theorem titleAux_idem (cs : List Char) : ∀ b : Bool, titleAux b (titleAux b cs) = titleAux b cs := by
  induction cs with
  | nil => intro b; rfl
  | cons c cs ih =>
    intro b
    by_cases ha : chIsAlpha c = true
    · cases b with
      | true =>
          simp only [titleAux, ha, if_pos, if_true]
          rw [chIsAlpha_chLo]
          simp [ha, chLo_chLo, ih true]
      | false =>
          simp only [titleAux, ha, if_pos, Bool.false_eq_true, if_false]
          rw [chIsAlpha_chUp]
          simp [ha, chUp_chUp, ih true]
    · have ha' : chIsAlpha c = false := Bool.eq_false_iff.2 ha
      simp only [titleAux, ha', Bool.false_eq_true, if_false, ih false]

theorem pyTitle_idem (s : String) : pyTitle (pyTitle s) = pyTitle s := by
  show String.mk (titleAux false (titleAux false s.data)) = String.mk (titleAux false s.data)
  rw [titleAux_idem]

/-! ## Re-normalization lemmas: feeding `ensure_columns` output back in -/

theorem titleCell_titleCell (c : Cell) : titleCell (titleCell c) = titleCell c := by
  cases c with
  | str s => simp [titleCell, pyTitle_idem]
  | null => rfl
  | num q => rfl
  | dt t => rfl

theorem toDatetime_toDatetime (c : Cell) : toDatetime (toDatetime c) = toDatetime c := by
  cases c with
  | str s =>
      simp only [toDatetime]
      cases parseDate s <;> rfl
  | null => rfl
  | num q => rfl
  | dt t => rfl

theorem pySlice_pySlice (s : String) (n : Nat) : pySlice (pySlice s n) n = pySlice s n := by
  simp [pySlice, List.take_take]

theorem titleCell_not_num (c : Cell) : (titleCell c).isNum = false := by
  cases c <;> rfl

/-- The `Type` cell of every normalized row is a string or missing, never a
number, so re-normalizing never hits the `.str` accessor crash. -/
theorem typeCrash_toRawTable (s : Settings) (catMap : List (Cell × Cell)) (t : RawTable) :
    typeCrash (toRawTable (t.rows.map (normRow s catMap t))) = false := by
  simp only [typeCrash, toRawTable, Bool.and_eq_false_iff]
  left
  right
  simp only [List.any_eq_false, List.map_map, List.mem_map]
  rintro r ⟨x, _, rfl⟩
  simpa [toRaw, normRow] using titleCell_not_num (effCell t.hasType x.typ)

theorem getD_self_getD {α : Type} (o : Option α) (x : α) : o.getD (o.getD x) = o.getD x := by
  cases o <;> rfl

/-- Re-normalizing one already-normalized row is the identity. -/
theorem normRow_idem (s : Settings) (catMap : List (Cell × Cell)) (t : RawTable)
    (ts : List Trans) (r : RawRow) :
    normRow s catMap (toRawTable ts) (toRaw (normRow s catMap t r)) = normRow s catMap t r := by
  simp only [normRow, toRaw, toRawTable, effCell, if_true, fillnaStr, cellToStr]
  refine Trans.mk.injEq _ _ _ _ _ _ _ _ _ _ _ _ _ _ |>.mpr ?_
  refine ⟨?_, ?_, ?_, ?_, ?_, ?_, ?_⟩
  · exact pySlice_pySlice _ 7
  · exact toDatetime_toDatetime _
  · rfl
  · exact titleCell_titleCell _
  · rfl
  · rfl
  · exact getD_self_getD _ _

/-- **C7** — Normalization is idempotent: whenever `ensure_columns` succeeds
on a frame (with a given catalog map and default month), running it again on
its own output — with the same catalog map and default month — succeeds and
returns the identical row list. -/
theorem ensure_columns_idempotent (s : Settings) (catMap : List (Cell × Cell)) (t : RawTable)
    (out : List Trans) (h : ensure_columns s catMap t = .ok out) :
    ensure_columns s catMap (toRawTable out) = .ok out := by
  unfold ensure_columns at h ⊢
  split at h
  · exact absurd h (by simp)
  · have hout : out = t.rows.map (normRow s catMap t) := by
      cases h
      rfl
    subst hout
    rw [typeCrash_toRawTable, if_neg (by simp)]
    refine congrArg Except.ok ?_
    show ((t.rows.map (normRow s catMap t)).map toRaw).map _ = t.rows.map (normRow s catMap t)
    rw [List.map_map]
    have : ∀ x ∈ t.rows.map (normRow s catMap t),
        (normRow s catMap (toRawTable (t.rows.map (normRow s catMap t))) ∘ toRaw) x = x := by
      intro x hx
      rcases List.mem_map.1 hx with ⟨r, _, rfl⟩
      exact normRow_idem s catMap t _ r
    rw [List.map_congr_left this]
    simp

/-! ## List and `groupby` helper lemmas -/

theorem mem_groupKeys {l : List String} {m : String} : m ∈ groupKeys l ↔ m ∈ l := by
  unfold groupKeys
  rw [(List.perm_insertionSort _ _).mem_iff]
  exact List.mem_dedup

theorem groupKeys_nodup (l : List String) : (groupKeys l).Nodup :=
  (List.perm_insertionSort _ _).nodup_iff.2 l.nodup_dedup

theorem groupKeys_sorted_lt (l : List String) : (groupKeys l).Sorted (· < ·) :=
  List.Sorted.lt_of_le (List.sorted_insertionSort _ _) (groupKeys_nodup l)

theorem filter_beq_nodup {α : Type} [DecidableEq α] {l : List α} (h : l.Nodup) (m : α) :
    l.filter (fun x => x == m) = if m ∈ l then [m] else [] := by
  induction l with
  | nil => rfl
  | cons a l ih =>
    rw [List.nodup_cons] at h
    by_cases ha : a = m
    · subst ha
      rw [List.filter_cons_of_pos (by simp)]
      have hnil : l.filter (fun x => x == a) = [] := by
        refine List.filter_eq_nil_iff.2 (fun x hx => ?_)
        simp only [beq_iff_eq]
        rintro rfl
        exact h.1 hx
      simp [hnil]
    · rw [List.filter_cons_of_neg (by simp [ha])]
      rw [ih h.2]
      have : ¬m = a := fun h' => ha h'.symm
      simp [List.mem_cons, this]

theorem sum_map_ite_eq (l : List Trans) (p : Trans → Bool) (f : Trans → Rat) :
    (l.map (fun r => if p r then f r else 0)).sum = ((l.filter p).map f).sum := by
  induction l with
  | nil => rfl
  | cons a l ih => by_cases h : p a <;> simp [List.filter_cons, h, ih]

/-! ## C1 — monthly aggregation -/

theorem sum_rowIncome (l : List Trans) :
    (l.map rowIncome).sum = ((l.filter (fun r => r.typ == Cell.str "Income")).map (·.actual)).sum :=
  sum_map_ite_eq l (fun r => r.typ == Cell.str "Income") (fun r => r.actual)

theorem sum_rowExpense (l : List Trans) :
    (l.map rowExpense).sum = ((l.filter (fun r => r.typ == Cell.str "Expense")).map (·.actual)).sum :=
  sum_map_ite_eq l (fun r => r.typ == Cell.str "Expense") (fun r => r.actual)

/-- **C1** — `aggregate_monthly` returns summaries whose month keys are
strictly ascending (hence one summary per distinct month), and for every
month string `m` the summaries carrying `m` are: none if `m` does not occur
in the data, and exactly the single summary with
`income = Σ actual` over `Income` rows of `m`, `expense = Σ actual` over
`Expense` rows of `m`, and `savings = income - expense` (a plain difference,
never clamped) if it does. -/
theorem aggregate_monthly_spec (df : List Trans) :
    ((aggregate_monthly df).map (·.month)).Sorted (· < ·)
  ∧ ∀ m : String, (aggregate_monthly df).filter (fun x => x.month == m)
      = if m ∈ df.map (·.month)
        then [⟨m, incomeSum df m, expenseSum df m, incomeSum df m - expenseSum df m⟩]
        else [] := by
  constructor
  · have h1 : (aggregate_monthly df).map (·.month) = groupKeys (df.map (·.month)) := by
      unfold aggregate_monthly
      rw [List.map_map]
      exact List.map_id'' (fun _ => rfl) _
    rw [h1]
    exact groupKeys_sorted_lt _
  · intro m
    unfold aggregate_monthly
    rw [List.filter_map]
    have hcomp : ((fun x : MonthSummary => x.month == m) ∘ fun k =>
        (⟨k, ((df.filter (fun r => r.month == k)).map rowIncome).sum,
            ((df.filter (fun r => r.month == k)).map rowExpense).sum,
            ((df.filter (fun r => r.month == k)).map rowIncome).sum
              - ((df.filter (fun r => r.month == k)).map rowExpense).sum⟩ : MonthSummary))
        = fun k => k == m := rfl
    rw [hcomp, filter_beq_nodup (groupKeys_nodup _) m]
    by_cases hm : m ∈ df.map (·.month)
    · rw [if_pos (mem_groupKeys.2 hm), if_pos hm]
      simp only [List.map_cons, List.map_nil]
      have hinc : ((df.filter (fun r => r.month == m)).map rowIncome).sum = incomeSum df m := by
        have h := sum_rowIncome (df.filter (fun r => r.month == m))
        rw [List.filter_filter] at h
        exact h
      have hexp : ((df.filter (fun r => r.month == m)).map rowExpense).sum = expenseSum df m := by
        have h := sum_rowExpense (df.filter (fun r => r.month == m))
        rw [List.filter_filter] at h
        exact h
      rw [hinc, hexp]
    · rw [if_neg (fun hc => hm (mem_groupKeys.1 hc)), if_neg hm]
      simp

/-! ## C10 — current month key -/

/-- **C10** — the "current month" is the `Month` value of the last transaction
row in insertion order (`df["Month"].iloc[-1]`), regardless of which month
string is lexicographically greatest; an empty frame falls back to
`settings["default_month"]`. -/
theorem current_month_key_spec (s : Settings) :
    current_month_key s [] = s.default_month
  ∧ ∀ (df : List Trans) (r : Trans), current_month_key s (df ++ [r]) = r.month := by
  refine ⟨rfl, ?_⟩
  intro df r
  simp [current_month_key, List.getLast?_concat]

/-! ## C5 — the normalizer is not total (code bug) -/

/-- **C5** (code-bug evidence) — `ensure_columns` is *not* total: on an
uploaded frame whose `Type` column holds only numeric values (so pandas
assigns the column a numeric dtype), line 56's `df["Type"].str.title()`
raises `AttributeError` instead of coercing, contradicting the spec's
"this stage never fails". -/
theorem ensure_columns_numeric_type_crash :
    ensure_columns sampleSettings sampleCatMap numericTypeUpload
      = .error "AttributeError: Can only use .str accessor with string values!" := rfl

/-! ## C6 — catalog upload -/

/-- **C6** (counterexample) — uploading a catalog that is missing the
`Section` column leaves the catalog unchanged but reports *nothing*: the
message list is empty, so the rejection is not reported to the caller
(lines 98–103 have no `else` branch; `st.success` fires only on
acceptance). -/
theorem upload_categories_counterexample :
    upload_categories sampleCatalog sampleBadUpload = (sampleCatalog, []) := by
  decide

/-- **C6** (amended) — when the stripped uploaded column names contain all of
`Category`, `Type`, `Section`, the catalog is replaced wholesale by the
upload (with stripped column names) and a success message is shown; otherwise
the catalog is kept unchanged and *no* message of any kind is emitted (the
rejection is silent). -/
theorem upload_categories_spec (cur up : CatalogDf) :
    ((∀ c ∈ ["Category", "Type", "Section"], c ∈ up.cols.map pyStrip) →
        upload_categories cur up = (stripCols up, [Msg.success "Categories updated."]))
  ∧ ((¬ ∀ c ∈ ["Category", "Type", "Section"], c ∈ up.cols.map pyStrip) →
        upload_categories cur up = (cur, [])) := by
  constructor
  · intro h
    have h1 := h "Category" (by simp)
    have h2 := h "Type" (by simp)
    have h3 := h "Section" (by simp)
    simp only [upload_categories, stripCols]
    rw [if_pos]
    simp only [Bool.and_eq_true, decide_eq_true_eq]
    exact ⟨⟨h1, h2⟩, h3⟩
  · intro h
    simp only [upload_categories, stripCols]
    rw [if_neg]
    intro hb
    simp only [Bool.and_eq_true, decide_eq_true_eq] at hb
    refine h (fun c hc => ?_)
    fin_cases hc
    · exact hb.1.1
    · exact hb.1.2
    · exact hb.2

theorem upload_categories_spec_witness :
    upload_categories sampleCatalog sampleGoodUpload
      = (stripCols sampleGoodUpload, [Msg.success "Categories updated."]) :=
  (upload_categories_spec sampleCatalog sampleGoodUpload).1 (by decide)

/-! ## C3 — early burn-rate alert -/

theorem count_burn_capAlerts (caps : List (String × Rat)) (expOnly : List CatSum) :
    (caps.filterMap fun p =>
        if p.2 < spentCat expOnly p.1 then some (Alert.capBreach p.1 p.2) else none).count
      Alert.burn = 0 := by
  induction caps with
  | nil => rfl
  | cons p caps ih =>
    rw [List.filterMap_cons]
    split
    · exact ih
    · rename_i b heq
      split at heq
      · cases heq
        simp [List.count_cons, ih, beq_iff_eq]
      · cases heq

/-- **C3** — the burn-rate alert appears exactly once in the guardrail output
when `totalBudget > 0` and `dayOfMonthToday < 20` and
`spentToDate > 0.8 * totalBudget`, and never otherwise; all three comparisons
are strict, so `spentToDate = 0.8 * totalBudget` or `dayOfMonthToday = 20`
never trigger it. -/
theorem burn_alert_spec (tot spent : Rat) (today : Int)
    (caps : List (String × Rat)) (expOnly : List CatSum) :
    (guardrail_alerts tot spent today caps expOnly).count Alert.burn
      = if 0 < tot ∧ today < 20 ∧ (4 / 5 : Rat) * tot < spent then 1 else 0 := by
  unfold guardrail_alerts
  rw [List.count_append, count_burn_capAlerts]
  split <;> simp

/-! ## C9 / C2 — per-category summary with budget override, hard caps -/

theorem overrideBudget_typ (bmap : List (String × Rat)) (r : Trans) :
    (overrideBudget bmap r).typ = r.typ := by
  unfold overrideBudget
  cases dictGet bmap r.category <;> rfl

theorem overrideBudget_category (bmap : List (String × Rat)) (r : Trans) :
    (overrideBudget bmap r).category = r.category := by
  unfold overrideBudget
  cases dictGet bmap r.category <;> rfl

theorem overrideBudget_actual (bmap : List (String × Rat)) (r : Trans) :
    (overrideBudget bmap r).actual = r.actual := by
  unfold overrideBudget
  cases dictGet bmap r.category <;> rfl

theorem expRows_eq (df : List Trans) (cm : String) (bmap : List (String × Rat)) :
    expRows df cm bmap
      = (df.filter (fun r => r.typ == Cell.str "Expense" && r.month == cm)).map
          (overrideBudget bmap) := by
  unfold expRows dfmOverride dfm
  rw [List.filter_map]
  rw [List.filter_congr
      (fun r _ => show ((fun x => x.typ == Cell.str "Expense") ∘ overrideBudget bmap) r
          = (r.typ == Cell.str "Expense") by
        simp [Function.comp, overrideBudget_typ])]
  rw [List.filter_filter]

theorem catRows_ne_nil_iff (df : List Trans) (cm cat : String) :
    catRows df cm cat ≠ []
      ↔ cat ∈ (df.filter (fun r => r.typ == Cell.str "Expense" && r.month == cm)).map
          (fun x => x.category) := by
  constructor
  · intro hne
    rcases List.exists_mem_of_ne_nil _ hne with ⟨r, hr⟩
    rw [catRows, List.mem_filter] at hr
    simp only [Bool.and_eq_true, beq_iff_eq] at hr
    refine List.mem_map.2 ⟨r, ?_, hr.2.1⟩
    rw [List.mem_filter]
    simp only [Bool.and_eq_true, beq_iff_eq]
    exact ⟨hr.1, hr.2.2⟩
  · rintro hm hnil
    rcases List.mem_map.1 hm with ⟨r, hr, rfl⟩
    rw [List.mem_filter] at hr
    rw [catRows, List.filter_eq_nil_iff] at hnil
    refine hnil r hr.1 ?_
    have h2 := hr.2
    simp only [Bool.and_eq_true, beq_iff_eq] at h2 ⊢
    simp [h2]

/-- Master characterization of `exp_only`: the summaries carrying category
`cat` are empty when the month has no expense row of that category, and
otherwise exactly one row whose budget is the sum of the *overridden* budget
cells, whose actual is the plain actual sum, and whose variance is their
difference. -/
theorem exp_only_filter_eq (df : List Trans) (cm : String) (bmap : List (String × Rat))
    (cat : String) :
    (exp_only df cm bmap).filter (fun x => x.category == cat)
      = if catRows df cm cat = [] then []
        else [⟨cat,
            ((catRows df cm cat).map (fun r => (overrideBudget bmap r).budget)).sum,
            catActual df cm cat,
            ((catRows df cm cat).map (fun r => (overrideBudget bmap r).budget)).sum
              - catActual df cm cat⟩] := by
  unfold exp_only
  rw [List.filter_map]
  rw [List.filter_congr
      (fun c _ => show ((fun x : CatSum => x.category == cat) ∘ catSummary (expRows df cm bmap)) c
          = (c == cat) from rfl)]
  rw [filter_beq_nodup (groupKeys_nodup _) cat]
  have hmemiff : cat ∈ groupKeys ((expRows df cm bmap).map (fun x => x.category))
      ↔ catRows df cm cat ≠ [] := by
    rw [mem_groupKeys, expRows_eq, List.map_map]
    rw [show ((fun x : Trans => x.category) ∘ overrideBudget bmap)
        = fun r => r.category from funext (fun r => overrideBudget_category bmap r)]
    exact (catRows_ne_nil_iff df cm cat).symm
  have hg : (expRows df cm bmap).filter (fun r => r.category == cat)
      = (catRows df cm cat).map (overrideBudget bmap) := by
    rw [expRows_eq, List.filter_map]
    rw [List.filter_congr
        (fun r _ => show ((fun x => x.category == cat) ∘ overrideBudget bmap) r
            = (r.category == cat) by
          simp [Function.comp, overrideBudget_category])]
    rw [List.filter_filter]
    rfl
  by_cases hnil : catRows df cm cat = []
  · rw [if_pos hnil, if_neg (fun hmem => hmemiff.1 hmem hnil)]
    simp
  · rw [if_neg hnil, if_pos (hmemiff.2 hnil)]
    simp only [List.map_cons, List.map_nil]
    congr 1
    unfold catSummary
    rw [hg]
    have hbud : (((catRows df cm cat).map (overrideBudget bmap)).map (fun r => r.budget)).sum
        = ((catRows df cm cat).map (fun r => (overrideBudget bmap r).budget)).sum := by
      rw [List.map_map]
      rfl
    have hact : (((catRows df cm cat).map (overrideBudget bmap)).map (fun r => r.actual)).sum
        = catActual df cm cat := by
      rw [List.map_map]
      unfold catActual
      exact congrArg List.sum
        (List.map_congr_left (fun r _ => by simp [Function.comp, overrideBudget_actual]))
    rw [hbud, hact]

/-- **C9** — in the per-category expense summary, a category present in the
budget map with monthly budget `b` and `k ≥ 1` expense rows in the current
month reports a summed budget of `k * b` (the override is applied to every
matching row *before* summation, not once), and its variance is
`k * b` minus the summed actual amount. -/
theorem category_budget_override_spec (df : List Trans) (cm : String)
    (bmap : List (String × Rat)) (cat : String) (b : Rat)
    (hb : dictGet bmap cat = some b) (hne : catRows df cm cat ≠ []) :
    (exp_only df cm bmap).filter (fun x => x.category == cat)
      = [⟨cat, ((catRows df cm cat).length : Rat) * b, catActual df cm cat,
          ((catRows df cm cat).length : Rat) * b - catActual df cm cat⟩] := by
  rw [exp_only_filter_eq, if_neg hne]
  have hrep : (catRows df cm cat).map (fun r => (overrideBudget bmap r).budget)
      = List.replicate (catRows df cm cat).length b := by
    refine List.eq_replicate_iff.2 ⟨by simp, ?_⟩
    rintro x hx
    rcases List.mem_map.1 hx with ⟨r, hr, rfl⟩
    rw [catRows, List.mem_filter] at hr
    simp only [Bool.and_eq_true, beq_iff_eq] at hr
    unfold overrideBudget
    rw [hr.2.1, hb]
  rw [hrep, List.sum_replicate, nsmul_eq_mul]

theorem category_budget_override_spec_witness :
    (exp_only sampleTxns "2025-01" sampleBmap).filter (fun x => x.category == "Rent")
      = [⟨"Rent", ((catRows sampleTxns "2025-01" "Rent").length : Rat) * 500,
          catActual sampleTxns "2025-01" "Rent",
          ((catRows sampleTxns "2025-01" "Rent").length : Rat) * 500
            - catActual sampleTxns "2025-01" "Rent"⟩] :=
  category_budget_override_spec sampleTxns "2025-01" sampleBmap "Rent" 500
    (by decide) (by decide)

/-- The guardrail loop's per-category spend taken from `exp_only` agrees with
the raw per-month, per-category actual expense sum. -/
theorem spentCat_exp_only (df : List Trans) (cm : String) (bmap : List (String × Rat))
    (cat : String) :
    spentCat (exp_only df cm bmap) cat = catActual df cm cat := by
  unfold spentCat
  rw [show (fun e : CatSum => e.category == cat) = fun x : CatSum => x.category == cat from rfl]
  rw [exp_only_filter_eq]
  by_cases hnil : catRows df cm cat = []
  · rw [if_pos hnil]
    unfold catActual
    rw [hnil]
    rfl
  · rw [if_neg hnil]
    simp

theorem capAlert_countP_zero (expOnly : List CatSum) (caps : List (String × Rat)) (cat : String)
    (h : cat ∉ caps.map Prod.fst) :
    ((caps.filterMap fun p =>
        if p.2 < spentCat expOnly p.1 then some (Alert.capBreach p.1 p.2) else none).countP
      (namesCat cat)) = 0 := by
  induction caps with
  | nil => rfl
  | cons p caps ih =>
    have hne : p.1 ≠ cat := fun he => h (by rw [List.map_cons]; exact he ▸ List.mem_cons_self _ _)
    have htail : cat ∉ caps.map Prod.fst := fun hc =>
      h (by rw [List.map_cons]; exact List.mem_cons_of_mem _ hc)
    rw [List.filterMap_cons]
    split
    · exact ih htail
    · rename_i b heq
      split at heq
      · cases heq
        rw [List.countP_cons, ih htail]
        simp [namesCat, hne]
      · cases heq

theorem capAlert_countP (expOnly : List CatSum) (caps : List (String × Rat)) (cat : String)
    (cap : Rat) (hmem : (cat, cap) ∈ caps) (hnd : (caps.map Prod.fst).Nodup) :
    ((caps.filterMap fun p =>
        if p.2 < spentCat expOnly p.1 then some (Alert.capBreach p.1 p.2) else none).countP
      (namesCat cat)) = if cap < spentCat expOnly cat then 1 else 0 := by
  induction caps with
  | nil => cases hmem
  | cons p caps ih =>
    rw [List.map_cons, List.nodup_cons] at hnd
    rw [List.filterMap_cons]
    rcases List.mem_cons.1 hmem with heq | htail
    · have hp : p = (cat, cap) := heq.symm
      subst hp
      have hz := capAlert_countP_zero expOnly caps cat hnd.1
      by_cases hlt : cap < spentCat expOnly cat
      · rw [if_pos hlt]
        show (Alert.capBreach cat cap :: _).countP (namesCat cat) = _
        rw [List.countP_cons, hz, if_pos hlt]
        simp [namesCat]
      · rw [if_neg hlt]
        show (List.filterMap _ caps).countP (namesCat cat) = _
        rw [hz, if_neg hlt]
    · have hp1 : p.1 ≠ cat := fun he =>
        hnd.1 (he ▸ List.mem_map.2 ⟨(cat, cap), htail, rfl⟩)
      split
      · exact ih htail hnd.2
      · rename_i b heq
        split at heq
        · cases heq
          rw [List.countP_cons, ih htail hnd.2]
          simp [namesCat, hp1]
        · cases heq

/-- **C2** — for an entry `(cat, cap)` of the hard-caps dict, the guardrail
evaluation emits exactly one cap-breach alert naming `cat` when the
category's summed actual expense for the current month strictly exceeds
`cap`, and none otherwise; spend exactly equal to the cap emits no alert. -/
theorem hard_cap_alert_spec (tot spent : Rat) (today : Int) (df : List Trans) (cm : String)
    (bmap : List (String × Rat)) (caps : List (String × Rat)) (cat : String) (cap : Rat)
    (hmem : (cat, cap) ∈ caps) (hnd : (caps.map Prod.fst).Nodup) :
    (guardrail_alerts tot spent today caps (exp_only df cm bmap)).countP (namesCat cat)
      = if cap < catActual df cm cat then 1 else 0 := by
  unfold guardrail_alerts
  rw [List.countP_append]
  have h0 : (if 0 < tot ∧ today < 20 ∧ (4 / 5 : Rat) * tot < spent
      then [Alert.burn] else []).countP (namesCat cat) = 0 := by
    split <;> simp [namesCat]
  rw [h0, capAlert_countP _ _ _ _ hmem hnd, spentCat_exp_only]
  simp

theorem hard_cap_alert_spec_witness :
    (guardrail_alerts 0 0 25 [("Rent", 100)]
        (exp_only sampleTxns "2025-01" sampleBmap)).countP (namesCat "Rent") = 1 := by
  rw [hard_cap_alert_spec 0 0 25 sampleTxns "2025-01" sampleBmap [("Rent", 100)] "Rent" 100
      (by decide) (by decide)]
  simp [catActual, catRows, sampleTxns, List.filter_cons, beq_iff_eq]
  norm_num

/-! ## C4 — weekly pace tracker -/

theorem days_in_month_pos (y m : Nat) (hy : 1 ≤ y) (hm1 : 1 ≤ m) (hm2 : m ≤ 12) :
    0 < days_in_month y m := by
  interval_cases m <;>
    simp only [days_in_month, monthStartOrd, daysBeforeMonth, daysBeforeYear, cumMonthDays,
      isLeap, List.getD, beq_iff_eq, Bool.and_eq_true, Bool.or_eq_true, bne_iff_ne,
      reduceIte, List.getElem?_cons_zero, List.getElem?_cons_succ, Option.getD_some] <;>
    split_ifs <;>
    simp_all <;>
    omega

/-- **C4** (counterexample) — the claim's range guarantee fails for a month
in the future: analysing `2026-12` with "today" being 2026-10-12 gives
`dayOfMonthToday = -49` (the `min` clamps only from above, never from below),
so the expected spend-to-date of a 300-budget is negative, outside
`[0, totalBudget]`. -/
theorem pace_range_counterexample :
    expected_spend_to_date 300 ((monthStartOrd 2026 10 : Int) + 11) 2026 12 < 0 := by
  have h1 : days_in_month 2026 12 = 31 := by decide
  have h2 : today_in_month ((monthStartOrd 2026 10 : Int) + 11) 2026 12 = -49 := by decide
  rw [expected_spend_to_date, if_pos (by omega), h2, h1]
  norm_num

/-- **C4** (amended) — for every analysed month (`1 ≤ m ≤ 12`, positive year)
and every current date **on or after the month's first day**,
`dayOfMonthToday` equals `min(elapsed days since month start + 1, daysInMonth)`
and `expectedSpendToDate` equals `totalBudget * dayOfMonthToday / daysInMonth`,
and the value lies in `[0, totalBudget]` for nonnegative budgets (in
particular a 30-day month at day 15 of a 300 budget yields exactly 150).  For
a current date *before* the month start the formulas still hold but the value
can be negative: the `min` clamps only from above. -/
theorem pace_spec (y m : Nat) (total : Rat) (nowOrd : Int)
    (hy : 1 ≤ y) (hm1 : 1 ≤ m) (hm2 : m ≤ 12)
    (hnow : (monthStartOrd y m : Int) ≤ nowOrd) (htot : 0 ≤ total) :
    today_in_month nowOrd y m
        = min (nowOrd - (monthStartOrd y m : Int) + 1) ((days_in_month y m : Int))
  ∧ expected_spend_to_date total nowOrd y m
      = total * ((today_in_month nowOrd y m : Rat) / ((days_in_month y m : Rat)))
  ∧ 0 ≤ expected_spend_to_date total nowOrd y m
  ∧ expected_spend_to_date total nowOrd y m ≤ total := by
  have hd : 0 < days_in_month y m := days_in_month_pos y m hy hm1 hm2
  have ht1 : (1 : Int) ≤ today_in_month nowOrd y m := by
    unfold today_in_month
    refine le_min (by omega) (by omega)
  have ht2 : today_in_month nowOrd y m ≤ (days_in_month y m : Int) :=
    min_le_right _ _
  have hdQ : (0 : Rat) < (days_in_month y m : Rat) := by exact_mod_cast hd
  have ht1Q : (0 : Rat) ≤ (today_in_month nowOrd y m : Rat) := by
    have : (0 : Int) ≤ today_in_month nowOrd y m := by omega
    exact_mod_cast this
  have hfrac0 : (0 : Rat) ≤ (today_in_month nowOrd y m : Rat) / (days_in_month y m : Rat) :=
    div_nonneg ht1Q (le_of_lt hdQ)
  have hfrac1 : (today_in_month nowOrd y m : Rat) / (days_in_month y m : Rat) ≤ 1 := by
    rw [div_le_one hdQ]
    exact_mod_cast ht2
  have hexp : expected_spend_to_date total nowOrd y m
      = total * ((today_in_month nowOrd y m : Rat) / (days_in_month y m : Rat)) := by
    unfold expected_spend_to_date
    rw [if_pos (by omega)]
  refine ⟨rfl, hexp, ?_, ?_⟩
  · rw [hexp]
    exact mul_nonneg htot hfrac0
  · rw [hexp]
    exact mul_le_of_le_one_right htot hfrac1

theorem pace_spec_witness :
    (today_in_month ((monthStartOrd 2024 9 : Int) + 14) 2024 9
        = min (((monthStartOrd 2024 9 : Int) + 14) - (monthStartOrd 2024 9 : Int) + 1)
            ((days_in_month 2024 9 : Int))
      ∧ expected_spend_to_date 300 ((monthStartOrd 2024 9 : Int) + 14) 2024 9
          = 300 * ((today_in_month ((monthStartOrd 2024 9 : Int) + 14) 2024 9 : Rat)
              / ((days_in_month 2024 9 : Rat)))
      ∧ 0 ≤ expected_spend_to_date 300 ((monthStartOrd 2024 9 : Int) + 14) 2024 9
      ∧ expected_spend_to_date 300 ((monthStartOrd 2024 9 : Int) + 14) 2024 9 ≤ 300)
  ∧ days_in_month 2024 9 = 30
  ∧ today_in_month ((monthStartOrd 2024 9 : Int) + 14) 2024 9 = 15
  ∧ expected_spend_to_date 300 ((monthStartOrd 2024 9 : Int) + 14) 2024 9 = 150 := by
  have hd : days_in_month 2024 9 = 30 := by decide
  have ht : today_in_month ((monthStartOrd 2024 9 : Int) + 14) 2024 9 = 15 := by decide
  refine ⟨pace_spec 2024 9 300 ((monthStartOrd 2024 9 : Int) + 14)
      (by decide) (by decide) (by decide) (by omega) (by norm_num), hd, ht, ?_⟩
  rw [expected_spend_to_date, if_pos (by omega), hd, ht]
  norm_num

/-! ## C8 — 3-month rolling average -/

theorem lastN_length {α : Type} (n : Nat) (l : List α) : (lastN n l).length = min n l.length := by
  simp only [lastN, List.length_drop]
  omega

theorem lastN_of_le {α : Type} {n : Nat} {l : List α} (h : l.length ≤ n) : lastN n l = l := by
  simp only [lastN]
  rw [Nat.sub_eq_zero_of_le h, List.drop_zero]

theorem lastN_append_ge (w t : List Rat) (ht : 1 ≤ t.length) :
    lastN 3 (lastN 2 w ++ t) = lastN 3 (w ++ t) := by
  by_cases hw : w.length ≤ 2
  · rw [lastN_of_le hw]
  · push_neg at hw
    unfold lastN
    rw [← List.drop_append_of_le_length (by omega)]
    rw [List.drop_drop]
    congr 1
    simp only [List.length_append, List.length_drop]
    omega

theorem roll3Aux_length (xs : List Rat) : ∀ prev : List Rat,
    (roll3Aux prev xs).length = xs.length := by
  induction xs with
  | nil => intro prev; rfl
  | cons x xs ih => intro prev; simp [roll3Aux, ih]

theorem roll3Aux_getElem (xs : List Rat) : ∀ (prev : List Rat), prev.length ≤ 2 →
    ∀ k : Nat, k < xs.length →
    (roll3Aux prev xs)[k]?
      = some ((lastN 3 (prev ++ xs.take (k + 1))).sum
          / ((lastN 3 (prev ++ xs.take (k + 1))).length : Rat)) := by
  induction xs with
  | nil => intro prev hp k hk; simp at hk
  | cons x xs ih =>
    intro prev hp k hk
    cases k with
    | zero =>
        have hlast : lastN 3 (prev ++ [x]) = prev ++ [x] :=
          lastN_of_le (by simp; omega)
        show ((prev ++ [x]).sum / ((prev ++ [x]).length : Rat)
            :: roll3Aux (lastN 2 (prev ++ [x])) xs)[0]? = _
        rw [List.getElem?_cons_zero, List.take_succ_cons, List.take_zero, hlast]
    | succ k =>
        have hk' : k < xs.length := by simpa using hk
        have hp' : (lastN 2 (prev ++ [x])).length ≤ 2 := by
          rw [lastN_length]
          omega
        show ((prev ++ [x]).sum / ((prev ++ [x]).length : Rat)
            :: roll3Aux (lastN 2 (prev ++ [x])) xs)[k + 1]? = _
        rw [List.getElem?_cons_succ, ih _ hp' k hk']
        have htake : prev ++ (x :: xs).take (k + 1 + 1) = (prev ++ [x]) ++ xs.take (k + 1) := by
          rw [List.take_succ_cons]
          simp
        rw [htake, lastN_append_ge _ _ (by simp [List.length_take]; omega)]

/-- **C8** — for every tracked category, the `Roll3` series has an entry for
*every* position of the category's chronologically sorted per-month totals
(never null, including series of length 1 and 2), and the entry at 1-based
position `k` is the arithmetic mean of the last `min 3 k` points of the
series up to `k`. -/
theorem rolling_avg_spec (df : List Trans) (cat : String) (_hcat : cat ∈ keycats)
    (k : Nat) (h1 : 1 ≤ k) (h2 : k ≤ (catSeries df cat).length) :
    (catRoll3 df cat).length = (catSeries df cat).length
  ∧ (catRoll3 df cat)[k - 1]?
      = some ((((catSeries df cat).take k).drop (k - 3)).sum
          / ((min 3 k : Nat) : Rat)) := by
  refine ⟨roll3Aux_length _ [], ?_⟩
  have hk : k - 1 < (catSeries df cat).length := by omega
  have h := roll3Aux_getElem (catSeries df cat) [] (by simp) (k - 1) hk
  rw [show k - 1 + 1 = k from by omega, List.nil_append] at h
  unfold catRoll3 roll3
  rw [h]
  have htl : ((catSeries df cat).take k).length = k := by
    simp [List.length_take]
    omega
  unfold lastN
  rw [htl]
  have hlen : (((catSeries df cat).take k).drop (k - 3)).length = min 3 k := by
    simp only [List.length_drop, htl]
    omega
  rw [hlen]

theorem rolling_avg_spec_witness :
    (catRoll3 sampleTxns "Clothing").length = (catSeries sampleTxns "Clothing").length
  ∧ (catRoll3 sampleTxns "Clothing")[2 - 1]?
      = some ((((catSeries sampleTxns "Clothing").take 2).drop (2 - 3)).sum
          / ((min 3 2 : Nat) : Rat)) := by
  have hle : ("2025-01" : String) ≤ "2025-02" := by
    simp
    decide
  have hs : catSeries sampleTxns "Clothing" = [60, 40] := by
    simp [catSeries, sampleTxns, keycats, groupKeys, List.insertionSort, List.orderedInsert,
      List.filter_cons, beq_iff_eq, hle]
  exact rolling_avg_spec sampleTxns "Clothing" (by decide) 2 (by omega)
    (by rw [hs]; decide)

theorem ensure_columns_idempotent_witness :
    ensure_columns sampleSettings sampleCatMap
        (toRawTable (sampleUpload.rows.map (normRow sampleSettings sampleCatMap sampleUpload)))
      = .ok (sampleUpload.rows.map (normRow sampleSettings sampleCatMap sampleUpload)) :=
  ensure_columns_idempotent sampleSettings sampleCatMap sampleUpload _ rfl

end BudgetApp
